import Mathlib

/-!
Verification of the Cray-HPE console-operator service.

This file gives a shallow embedding, in Lean, of the parts of the
console-operator Go sources that the specification's claims are about:

* the node data model (`nodeConsoleInfo`, `redfishEndpoint`,
  `stateComponent`) and the class predicates from the node-info file;
* the hardware-reconcile step `doHardwareUpdate` and its driver loop body
  `watchHardwareTick` from `consoleOpMain.go` (the loop body of
  `watchHardware`);
* the fleet-sizing routine `updateNodeCounts` and the budget-file writer
  `updateNodesPerPod` from the node-info file and `k8s.go`;
* the HSM fetch `getCurrentNodesFromHSM` including the `bmc_id`
  derivation (`strings.LastIndex` + slicing, which panics when the id
  has no `n`);
* the websocket gateway handlers `doInteractConsole` and
  `doFollowConsole` from `console.go` (the current version of the file);
* the environment-variable reader `readSingleEnvVarInt` together with a
  model of `strconv.Atoi`.

Maps (`nodeCache`, the redfish index) are modelled as association lists
keyed by the relevant name; iteration order of a Go map is not
observable in any of the properties proved here beyond list/set
membership, and the deterministic list order stands in for it.
External effects (HTTP calls to console-data, the k8s API, the key
staging script, the websocket upgrade) are modelled by boolean/optional
inputs carrying their outcome, and by payload fields in the results
recording exactly what would have been sent.
-/

/-- Basic unit of information for each node (struct `nodeConsoleInfo`). -/
structure NodeConsoleInfo where
  NodeName : String
  BmcName : String
  BmcFqdn : String
  Class : String
  NID : Int
  Role : String
deriving DecidableEq

/-- `isMountain`: a node is Mountain hardware when its class is Mountain or Hill. -/
def NodeConsoleInfo.isMountain (node : NodeConsoleInfo) : Bool :=
  node.Class == "Mountain" || node.Class == "Hill"

/-- `isRiver`: a node is River hardware when its class is River. -/
def NodeConsoleInfo.isRiver (node : NodeConsoleInfo) : Bool :=
  node.Class == "River"

/-- HSM redfish endpoint record (struct `redfishEndpoint`). -/
structure RedfishEndpoint where
  ID : String
  Type' : String
  FQDN : String
  User : String
  Password : String
deriving DecidableEq

/-- HSM state component record (struct `stateComponent`). -/
structure StateComponent where
  ID : String
  Type' : String
  Class : String
  NID : Int
  Role : String
deriving DecidableEq

/-! ## The BMC-name derivation and the HSM fetch (`getCurrentNodesFromHSM`)

The Go code derives the BMC name as
`sc.ID[0:strings.LastIndex(sc.ID, "n")]`.  When the id contains no `n`,
`strings.LastIndex` returns `-1` and the slice expression
`sc.ID[0:-1]` panics at run time, aborting the whole fetch.  The
derivation is therefore partial; `none` models the panic. -/

/-- Characters strictly before the last `n` of the string, or `none` when the
string contains no `n` (in which case the Go slice expression panics). -/
def bmcNameChars (cs : List Char) : Option (List Char) :=
  match cs.reverse.dropWhile (fun c => c != 'n') with
  | [] => none
  | _ :: rest => some rest.reverse

/-- `bmcName`: the Go expression `sc.ID[0:strings.LastIndex(sc.ID, "n")]`,
with `none` standing for the run-time panic on ids without `n`. -/
def bmcName (id : String) : Option String :=
  (bmcNameChars id.data).map (fun cs => String.mk cs)

/-- Lookup in the redfish map `rfMap`.  The Go map is built by inserting the
endpoints in order, so a duplicate ID keeps the last insertion. -/
def rfLookup (rfEndpoints : List RedfishEndpoint) (bmc : String) : Option RedfishEndpoint :=
  rfEndpoints.reverse.find? (fun rf => rf.ID == bmc)

/-- NodeRecord assembled for a state component whose BMC was found. -/
def mkNodeInfo (sc : StateComponent) (bmc : String) (rf : RedfishEndpoint) : NodeConsoleInfo :=
  { NodeName := sc.ID, BmcName := bmc, BmcFqdn := rf.FQDN
    Class := sc.Class, NID := sc.NID, Role := sc.Role }

/-- Body of the loop over state components in `getCurrentNodesFromHSM`:
components of Type `Node` have their BMC name derived (a panic aborts the
whole computation, hence `Option`); nodes whose BMC is absent from the
redfish index are skipped. -/
def nodesFromComponents (rfEndpoints : List RedfishEndpoint) :
    List StateComponent → Option (List NodeConsoleInfo)
  | [] => some []
  | sc :: rest =>
    if sc.Type' == "Node" then
      match bmcName sc.ID with
      | none => none
      | some bmc =>
        match rfLookup rfEndpoints bmc with
        | some rf => (nodesFromComponents rfEndpoints rest).map
            (fun ns => mkNodeInfo sc bmc rf :: ns)
        | none => nodesFromComponents rfEndpoints rest
    else nodesFromComponents rfEndpoints rest

/-- `getCurrentNodesFromHSM`, given the two collections already fetched from
HSM (a fetch error makes the real function return `nil` before this loop
runs; that path is modelled by the caller passing an empty current list).
`none` models the run-time panic of the BMC-name slice. -/
def getCurrentNodesFromHSM (rfEndpoints : List RedfishEndpoint)
    (stComps : List StateComponent) : Option (List NodeConsoleInfo) :=
  nodesFromComponents rfEndpoints stComps

/-! ## The hardware-reconcile step (`doHardwareUpdate`)

The node cache (Go `map[string]nodeConsoleInfo`) is modelled as a list
of records keyed by `NodeName`.  The step is decomposed into the same
phases the Go function performs in order: the new-node scan (which also
inserts into the cache), the `updateAll` / `redeployMtnKeys` payload
overrides, the removal scan with its class counts, and the cache
deletion of removed nodes. -/

/-- `_, found := nodeCache[n.NodeName]` — membership of a name in the cache. -/
def cacheHasNode (cache : List NodeConsoleInfo) (name : String) : Bool :=
  cache.any (fun v => v.NodeName == name)

/-- First loop of `doHardwareUpdate`: walk the current HSM nodes, inserting
unknown ones into the cache while collecting them (and the mountain subset)
as new.  Returns (cache after additions, newNodes, newMtnNodes). -/
def addNewNodes : List NodeConsoleInfo → List NodeConsoleInfo →
    List NodeConsoleInfo × List NodeConsoleInfo × List NodeConsoleInfo
  | cache, [] => (cache, [], [])
  | cache, n :: rest =>
    if cacheHasNode cache n.NodeName then addNewNodes cache rest
    else
      let p := addNewNodes (cache ++ [n]) rest
      (p.1, n :: p.2.1, if n.isMountain then n :: p.2.2 else p.2.2)

/-- The cache after this tick's additions have been inserted (and before
removals are deleted). -/
def cacheAfterAdds (cache curr : List NodeConsoleInfo) : List NodeConsoleInfo :=
  (addNewNodes cache curr).1

/-- Whether a cached entry is still present in the current HSM node list
(the inner `found` scan of the removal loop). -/
def inCurrent (curr : List NodeConsoleInfo) (v : NodeConsoleInfo) : Bool :=
  curr.any (fun n => n.NodeName == v.NodeName)

/-- The `newNodes` slice handed to `dataAddNodes`: the genuinely new nodes,
except that under `updateAll` the slice is reset and then refilled with every
entry of the cache as it stands during the removal loop (additions inserted,
removals not yet deleted). -/
def registerPayload (cache curr : List NodeConsoleInfo) (updateAll : Bool) :
    List NodeConsoleInfo :=
  if updateAll then cacheAfterAdds cache curr else (addNewNodes cache curr).2.1

/-- The `newMtnNodes` slice handed to the mountain key staging: the new
mountain nodes, except that under `redeployMtnKeys` the slice is reset and
refilled with every mountain entry of the cache during the removal loop. -/
def mtnKeyPayload (cache curr : List NodeConsoleInfo) (redeployMtnKeys : Bool) :
    List NodeConsoleInfo :=
  if redeployMtnKeys then (cacheAfterAdds cache curr).filter (fun v => v.isMountain)
  else (addNewNodes cache curr).2.2

/-- The `removedNodes` slice: cached entries absent from the current list. -/
def removedList (cache curr : List NodeConsoleInfo) : List NodeConsoleInfo :=
  (cacheAfterAdds cache curr).filter (fun v => !(inCurrent curr v))

/-- Count of retained river nodes (the `numRvrNodes++` branch). -/
def countRvr (cache curr : List NodeConsoleInfo) : Nat :=
  ((cacheAfterAdds cache curr).filter (fun v => inCurrent curr v && v.isRiver)).length

/-- Count of retained mountain nodes (the `else if` `numMtnNodes++` branch,
reached only when the node is not river). -/
def countMtn (cache curr : List NodeConsoleInfo) : Nat :=
  ((cacheAfterAdds cache curr).filter
    (fun v => inCurrent curr v && !v.isRiver && v.isMountain)).length

/-- The cache after `delete(nodeCache, n.NodeName)` has run for every removed
node: entries whose name does not occur among the removed nodes. -/
def retainedCache (cache curr : List NodeConsoleInfo) : List NodeConsoleInfo :=
  (cacheAfterAdds cache curr).filter
    (fun v => !((removedList cache curr).any (fun r => r.NodeName == v.NodeName)))

/-- Everything one `doHardwareUpdate` call computes and dispatches.
`newNodes` / `removedNodes` / `newMtnNodes` are the exact payloads that are
sent to `dataAddNodes` / `dataRemoveNodes` / key staging; each call is issued
iff its payload is non-empty. -/
structure HardwareUpdateResult where
  hardwareUpdateTime : String
  newCache : List NodeConsoleInfo
  newNodes : List NodeConsoleInfo
  removedNodes : List NodeConsoleInfo
  newMtnNodes : List NodeConsoleInfo
  numMtnNodes : Nat
  numRvrNodes : Nat
  updateSuccess : Bool
  keySuccess : Bool
deriving DecidableEq

/-- `doHardwareUpdate`.  `now` is the timestamp recorded at entry; `addOk`
is the outcome `dataAddNodes` would return if called, `stageOk` likewise for
`ensureMountainConsoleKeysDeployed`.  `updateSuccess` is false exactly when a
non-empty add payload was sent and failed; `keySuccess` is false exactly when
a non-empty mountain payload was staged and failed. -/
def doHardwareUpdate (now : String) (cache curr : List NodeConsoleInfo)
    (updateAll redeployMtnKeys addOk stageOk : Bool) : HardwareUpdateResult :=
  { hardwareUpdateTime := now
    newCache := retainedCache cache curr
    newNodes := registerPayload cache curr updateAll
    removedNodes := removedList cache curr
    newMtnNodes := mtnKeyPayload cache curr redeployMtnKeys
    numMtnNodes := countMtn cache curr
    numRvrNodes := countRvr cache curr
    updateSuccess := if (registerPayload cache curr updateAll).isEmpty then true else addOk
    keySuccess := if (mtnKeyPayload cache curr redeployMtnKeys).isEmpty then true else stageOk }

/-! ## The reconcile loop body (`watchHardware`) -/

/-- Loop-carried state of `watchHardware` plus the shared node cache. -/
structure WatchState where
  forceUpdateCnt : Int
  updateMtnKey : Bool
  cache : List NodeConsoleInfo
deriving DecidableEq

/-- Result of one pass of the `watchHardware` loop. -/
structure TickOutcome where
  state : WatchState
  result : HardwareUpdateResult
deriving DecidableEq

/-- One non-shutdown iteration of the `watchHardware` loop: run
`doHardwareUpdate` with `updateAll = (forceUpdateCnt == 0)` and
`redeployMtnKeys = updateMtnKey`, then decrement the countdown (resetting to
10 below zero), override it to 0 when the console-data update failed, and
latch `updateMtnKey` iff the key staging failed. -/
def watchHardwareTick (st : WatchState) (now : String) (curr : List NodeConsoleInfo)
    (addOk stageOk : Bool) : TickOutcome :=
  let r := doHardwareUpdate now st.cache curr (st.forceUpdateCnt == 0) st.updateMtnKey
    addOk stageOk
  let c1 := st.forceUpdateCnt - 1
  let c2 := if c1 < 0 then 10 else c1
  let c3 := if r.updateSuccess then c2 else 0
  { state := { forceUpdateCnt := c3, updateMtnKey := !r.keySuccess, cache := r.newCache }
    result := r }

/-! ## Fleet sizing (`updateNodeCounts`) and the replica/budget updates

`math.Ceil(float64(a)/b)` on the node counts in play is exact integer
ceiling division; it is embedded as `ceilDiv`.  `math.Max(float64(m), 1)`
on the configured maxima is `max m 1`. -/

/-- Integer ceiling division (the embedding of `math.Ceil(float64 a / b)`
for the natural quantities used by the sizing code; callers always pass
`b ≥ 1`). -/
def ceilDiv (a b : Nat) : Nat := (a + b - 1) / b

/-- The three mutable sizing globals: `numNodePods`, `numMtnNodesPerPod`,
`numRvrNodesPerPod` (all initialized to -1 at boot, hence `Int`). -/
structure SizingState where
  numNodePods : Int
  numMtnNodesPerPod : Int
  numRvrNodesPerPod : Int
deriving DecidableEq

/-- `newNumPods`: pods needed, the larger of the mountain and river
requirements, each `⌈count/max⌉ + 1` with a configured maximum of 0 (or
less, impossible here for `Nat`) lifted to 1. -/
def podsRequired (numMtnNodes numRvrNodes maxMtn maxRvr : Nat) : Nat :=
  max (ceilDiv numMtnNodes (max maxMtn 1) + 1) (ceilDiv numRvrNodes (max maxRvr 1) + 1)

/-- `newMtn`: mountain consoles each pod should watch. -/
def mtnBudget (numMtnNodes pods : Nat) : Nat := ceilDiv numMtnNodes pods + 1

/-- `newRvr`: river consoles each pod should watch. -/
def rvrBudget (numRvrNodes pods : Nat) : Nat := ceilDiv numRvrNodes pods + 1

/-- What one `updateNodeCounts` call computed and attempted, when it did not
bail out on an empty system: the replica count requested from k8s, the two
per-pod budgets, and whether the budget pair was (re)written to the shared
`TargetNodes.txt` file. -/
structure SizingCalc where
  newNumPods : Nat
  newMtn : Nat
  newRvr : Nat
  fileWritten : Bool
deriving DecidableEq

/-- `updateNodeCounts` combined with the state effects of
`updateReplicaCount` (which stores `numNodePods` only when the k8s update
chain succeeds, modelled by `resizeOk`) and `updateNodesPerPod` (which is
called only when the computed budget pair differs from the stored one, and
then stores it).  Returns the updated globals and, unless the routine bailed
out because `numMtnNodes + numRvrNodes == 0`, the calculation it acted on. -/
def updateNodeCounts (numMtnNodes numRvrNodes maxMtn maxRvr : Nat)
    (st : SizingState) (resizeOk : Bool) : SizingState × Option SizingCalc :=
  if numMtnNodes + numRvrNodes = 0 then (st, none)
  else
    let pods := podsRequired numMtnNodes numRvrNodes maxMtn maxRvr
    let nm := mtnBudget numMtnNodes pods
    let nr := rvrBudget numRvrNodes pods
    let written := ((nr : Int) != st.numRvrNodesPerPod) || ((nm : Int) != st.numMtnNodesPerPod)
    let st1 := if resizeOk then { st with numNodePods := (pods : Int) } else st
    let st2 := if written then
        { st1 with numMtnNodesPerPod := (nm : Int), numRvrNodesPerPod := (nr : Int) }
      else st1
    (st2, some { newNumPods := pods, newMtn := nm, newRvr := nr, fileWritten := written })

/-! ## The shared budget file (`updateNodesPerPod`) and its parse

The writer truncates the file and writes exactly the two lines
`River:<n>\n` and `Mountain:<n>\n` (`fmt.Sprintf("%d", ·)` rendering).
Decimal rendering is embedded by `natDigits` (fuel-structural so that it
evaluates), and the reader's parse — which lives in the console-node
repository, not here — is modelled from the spec. -/

/-- Decimal digit character for a value below 10. -/
def digitChar (d : Nat) : Char := Char.ofNat (48 + d)

/-- Numeric value of a decimal digit character, if it is one. -/
def digitVal (c : Char) : Option Nat :=
  if 48 ≤ c.toNat ∧ c.toNat ≤ 57 then some (c.toNat - 48) else none

/-- Fuel-indexed decimal rendering; the fuel bounds the number of
divisions by ten. -/
def natDigitsAux : Nat → Nat → List Char
  | 0, _ => []
  | fuel + 1, n =>
    if n < 10 then [digitChar n]
    else natDigitsAux fuel (n / 10) ++ [digitChar (n % 10)]

/-- Decimal rendering of a natural number (the embedding of `%d`). -/
def natDigits (n : Nat) : List Char := natDigitsAux (n + 1) n

/-- Accumulating decimal parse of a digit string. -/
def parseNatAux : List Char → Nat → Option Nat
  | [], acc => some acc
  | c :: cs, acc =>
    match digitVal c with
    | some d => parseNatAux cs (acc * 10 + d)
    | none => none

/-- Decimal parse of a non-empty all-digit string. -/
def parseNat (cs : List Char) : Option Nat :=
  if cs.isEmpty then none else parseNatAux cs 0

/-- The tag opening the first line of the budget file. -/
def riverTag : List Char := ['R', 'i', 'v', 'e', 'r', ':']

/-- The tag opening the second line of the budget file. -/
def mountainTag : List Char := ['M', 'o', 'u', 'n', 't', 'a', 'i', 'n', ':']

/-- The exact byte content `updateNodesPerPod` writes for the pair
(`newNumMtn`, `newNumRvr`): `River:<rvr>\n` then `Mountain:<mtn>\n`. -/
def targetNodeFileContent (newNumMtn newNumRvr : Nat) : List Char :=
  riverTag ++ natDigits newNumRvr ++ ['\n'] ++
    mountainTag ++ natDigits newNumMtn ++ ['\n']

/-- Split a character stream at its first newline: the line before and the
remainder after, or `none` when no newline occurs. -/
def splitAtNewline : List Char → Option (List Char × List Char)
  | [] => none
  | c :: cs =>
    if c = '\n' then some ([], cs)
    else (splitAtNewline cs).map (fun p => (c :: p.1, p.2))

/-- Strip an expected tag from the front of a line. -/
def dropTag : List Char → List Char → Option (List Char)
  | [], cs => some cs
  | _ :: _, [] => none
  | t :: ts, c :: cs => if c = t then dropTag ts cs else none

/-- Modelled from the spec: the out-of-band parse the console-node workers
apply to the shared budget file (the reader is not part of this repository).
Exactly two newline-terminated lines, `River:<n>` then `Mountain:<n>`;
returns the pair (mountain, river). -/
def parseTargetNodeFile (cs : List Char) : Option (Nat × Nat) :=
  match splitAtNewline cs with
  | none => none
  | some (l1, rest) =>
    match splitAtNewline rest with
    | none => none
    | some (l2, rest2) =>
      if rest2 = [] then
        match dropTag riverTag l1 with
        | none => none
        | some ds1 =>
          match parseNat ds1 with
          | none => none
          | some rvr =>
            match dropTag mountainTag l2 with
            | none => none
            | some ds2 =>
              match parseNat ds2 with
              | none => none
              | some mtn => some (mtn, rvr)
      else none

/-! ## The gateway handlers (`doInteractConsole`, `doFollowConsole`) -/

/-- The parts of an inbound HTTP request the two streaming handlers can see:
the method, the `nodeXname` chi URL parameter, and the request headers. -/
structure HttpRequest where
  method : String
  xname : String
  headers : List (String × String)
deriving DecidableEq

/-- How a streaming handler run ends: 405, 400, a failed websocket upgrade
(handler returns with no further response), or an upgraded websocket driving
an exec stream of `cmd` in pod `podName`. -/
inductive GatewayOutcome where
  | methodNotAllowed : GatewayOutcome
  | badRequest : GatewayOutcome
  | upgradeFailed : GatewayOutcome
  | execStream (podName : String) (cmd : List String) : GatewayOutcome
deriving DecidableEq

/-- The pod name the handlers use: `getNodePodForXname` returns the empty
string alongside an error, and the handlers ignore the error. -/
def lookupPodName (lookupResult : Except String String) : String :=
  match lookupResult with
  | .ok p => p
  | .error _ => ""

/-- The command `doFollowConsole` builds (the `-F` and `-n 20` arguments are
hard-coded; the TODO in the source defers header-driven options). -/
def followCmd (xname : String) : List String :=
  ["tail", "-F", "-n 20", "/var/log/conman/console." ++ xname]

/-- `doInteractConsole`: reject non-GET with 405, empty xname with 400,
then upgrade to a websocket (failure just returns) and exec
`conman -j <xname>` in whatever pod the (error-ignored) lookup produced.
The node cache is never consulted and no 404 is ever produced. -/
def doInteractConsole (r : HttpRequest) (upgradeOk : Bool)
    (lookupResult : Except String String) : GatewayOutcome :=
  if r.method != "GET" then .methodNotAllowed
  else if r.xname == "" then .badRequest
  else if !upgradeOk then .upgradeFailed
  else .execStream (lookupPodName lookupResult) ["conman", "-j", r.xname]

/-- `doFollowConsole`: identical gatekeeping to `doInteractConsole`, then
exec `tail -F "-n 20" /var/log/conman/console.<xname>` in the looked-up pod.
The request headers (`r.headers`) are never read. -/
def doFollowConsole (r : HttpRequest) (upgradeOk : Bool)
    (lookupResult : Except String String) : GatewayOutcome :=
  if r.method != "GET" then .methodNotAllowed
  else if r.xname == "" then .badRequest
  else if !upgradeOk then .upgradeFailed
  else .execStream (lookupPodName lookupResult) (followCmd r.xname)

/-! ## Environment configuration (`readSingleEnvVarInt`) -/

/-- Model of `strconv.Atoi`: an optional sign followed by at least one
decimal digit and nothing else. -/
def atoi : List Char → Option Int
  | [] => none
  | '+' :: rest => (parseNat rest).map (fun n => (n : Int))
  | '-' :: rest => (parseNat rest).map (fun n => -(n : Int))
  | cs => (parseNat cs).map (fun n => (n : Int))

/-- `readSingleEnvVarInt`: an unset (empty) or unparsable environment value
leaves the target variable at its prior value; a parsed value is raised to
`minVal` and then lowered to `maxVal` before being stored. -/
def readSingleEnvVarInt (envVal : List Char) (cur minVal maxVal : Int) : Int :=
  if envVal.isEmpty then cur
  else
    match atoi envVal with
    | none => cur
    | some vi =>
      let v1 := if vi < minVal then minVal else vi
      let v2 := if v1 > maxVal then maxVal else v1
      v2

/-! ## Shared concrete sample data for counterexamples and witnesses -/

/-- A sample river node. -/
def sampleRiverNode : NodeConsoleInfo :=
  { NodeName := "x3000c0s1b0n0", BmcName := "x3000c0s1b0", BmcFqdn := "bmc-r.local"
    Class := "River", NID := 1, Role := "Compute" }

/-- A sample mountain node. -/
def sampleMtnNode : NodeConsoleInfo :=
  { NodeName := "x5000c1s0b0n0", BmcName := "x5000c1s0b0", BmcFqdn := "bmc-m.local"
    Class := "Mountain", NID := 2, Role := "Compute" }

/-! ## Helper lemmas: decimal rendering round-trips through the parse -/

theorem digitVal_digitChar : ∀ d, d < 10 → digitVal (digitChar d) = some d := by
  decide

theorem digitChar_ne_newline : ∀ d, d < 10 → digitChar d ≠ '\n' := by
  decide

theorem natDigitsAux_parse (fuel : Nat) : ∀ n, n < fuel → ∀ acc rest,
    parseNatAux (natDigitsAux fuel n ++ rest) acc =
      parseNatAux rest (acc * 10 ^ (natDigitsAux fuel n).length + n) := by
  induction fuel with
  | zero => intro n hn; omega
  | succ fuel ih =>
    intro n hn acc rest
    by_cases h10 : n < 10
    · simp [natDigitsAux, h10, parseNatAux, digitVal_digitChar n h10]
    · have hdiv : n / 10 < fuel := by
        have h1 : n / 10 < n := Nat.div_lt_self (by omega) (by omega)
        have h2 : n / 10 ≤ n / 2 := Nat.div_le_div_left (by omega) (by omega)
        omega
      simp only [natDigitsAux, if_neg h10, List.append_assoc, List.cons_append,
        List.nil_append, List.length_append, List.length_cons, List.length_nil]
      rw [ih (n / 10) hdiv]
      have hmod : n % 10 < 10 := Nat.mod_lt _ (by omega)
      simp only [parseNatAux, digitVal_digitChar _ hmod]
      congr 1
      calc (acc * 10 ^ (natDigitsAux fuel (n / 10)).length + n / 10) * 10 + n % 10
          = acc * 10 ^ (natDigitsAux fuel (n / 10)).length * 10 + (n / 10 * 10 + n % 10) := by
            ring
        _ = acc * 10 ^ (natDigitsAux fuel (n / 10)).length * 10 + n := by omega
        _ = acc * 10 ^ ((natDigitsAux fuel (n / 10)).length + 1) + n := by
            rw [pow_succ]; ring

theorem natDigits_ne_nil (n : Nat) : natDigits n ≠ [] := by
  unfold natDigits natDigitsAux
  by_cases h : n < 10 <;> simp [h]

theorem parseNat_natDigits (n : Nat) : parseNat (natDigits n) = some n := by
  have h := natDigitsAux_parse (n + 1) n (by omega) 0 []
  simp only [List.append_nil] at h
  rw [parseNat, if_neg (by simp [natDigits_ne_nil n, List.isEmpty_iff])]
  rw [natDigits] at *
  rw [h]
  simp [parseNatAux]

theorem mem_natDigits_digit (n : Nat) : ∀ c ∈ natDigits n, ∃ d, d < 10 ∧ c = digitChar d := by
  rw [natDigits]
  generalize hf : n + 1 = fuel
  have hn : n < fuel := by omega
  clear hf
  induction fuel generalizing n with
  | zero => omega
  | succ fuel ih =>
    intro c hc
    by_cases h10 : n < 10
    · simp only [natDigitsAux, if_pos h10, List.mem_singleton] at hc
      exact ⟨n, h10, hc⟩
    · simp only [natDigitsAux, if_neg h10, List.mem_append, List.mem_singleton] at hc
      rcases hc with hc | hc
      · have hdiv : n / 10 < fuel := by
          have h1 : n / 10 < n := Nat.div_lt_self (by omega) (by omega)
          have h2 : n / 10 ≤ n / 2 := Nat.div_le_div_left (by omega) (by omega)
          omega
        exact ih (n / 10) hdiv c hc
      · exact ⟨n % 10, Nat.mod_lt _ (by omega), hc⟩

theorem newline_not_mem_natDigits (n : Nat) : '\n' ∉ natDigits n := by
  intro hmem
  rcases mem_natDigits_digit n '\n' hmem with ⟨d, hd, hc⟩
  exact digitChar_ne_newline d hd hc.symm

theorem splitAtNewline_append (xs ys : List Char) (hxs : '\n' ∉ xs) :
    splitAtNewline (xs ++ '\n' :: ys) = some (xs, ys) := by
  induction xs with
  | nil => simp [splitAtNewline]
  | cons c cs ih =>
    have hc : c ≠ '\n' := by intro h; exact hxs (h ▸ List.mem_cons_self c cs)
    have hcs : '\n' ∉ cs := fun h => hxs (List.mem_cons_of_mem c h)
    simp [splitAtNewline, hc, ih hcs]

theorem dropTag_append (t cs : List Char) : dropTag t (t ++ cs) = some cs := by
  induction t with
  | nil => simp [dropTag]
  | cons c ts ih => simp [dropTag, ih]

theorem newline_not_mem_riverLine (r : Nat) : '\n' ∉ riverTag ++ natDigits r := by
  intro h
  rcases List.mem_append.mp h with h | h
  · revert h; decide
  · exact newline_not_mem_natDigits r h

theorem newline_not_mem_mountainLine (m : Nat) : '\n' ∉ mountainTag ++ natDigits m := by
  intro h
  rcases List.mem_append.mp h with h | h
  · revert h; decide
  · exact newline_not_mem_natDigits m h

theorem parse_targetNodeFileContent (m r : Nat) :
    parseTargetNodeFile (targetNodeFileContent m r) = some (m, r) := by
  have e1 : targetNodeFileContent m r =
      (riverTag ++ natDigits r) ++
        '\n' :: ((mountainTag ++ natDigits m) ++ '\n' :: ([] : List Char)) := by
    simp [targetNodeFileContent]
  rw [parseTargetNodeFile, e1, splitAtNewline_append _ _ (newline_not_mem_riverLine r)]
  have e2 : mountainTag ++ natDigits m ++ ['\n'] =
      (mountainTag ++ natDigits m) ++ '\n' :: ([] : List Char) := by
    rw [List.append_assoc]
  simp only [e2, splitAtNewline_append _ _ (newline_not_mem_mountainLine m)]
  simp [dropTag_append, parseNat_natDigits]

theorem count_newline_targetNodeFileContent (m r : Nat) :
    (targetNodeFileContent m r).count '\n' = 2 := by
  have hr : (natDigits r).count '\n' = 0 :=
    List.count_eq_zero.mpr (newline_not_mem_natDigits r)
  have hm : (natDigits m).count '\n' = 0 :=
    List.count_eq_zero.mpr (newline_not_mem_natDigits m)
  simp [targetNodeFileContent, List.count_append, hr, hm]
  decide

/-! ## Helper lemmas: a tick against an empty inventory result -/

theorem addNewNodes_nil (cache : List NodeConsoleInfo) :
    addNewNodes cache [] = (cache, [], []) := rfl

theorem removedList_nil (cache : List NodeConsoleInfo) :
    removedList cache [] = cache := by
  simp [removedList, cacheAfterAdds, addNewNodes, inCurrent]

theorem retainedCache_nil (cache : List NodeConsoleInfo) :
    retainedCache cache [] = [] := by
  rw [retainedCache, List.filter_eq_nil_iff]
  intro v hv
  have hv2 : v ∈ cache := by
    rw [cacheAfterAdds, addNewNodes_nil] at hv; exact hv
  rw [removedList_nil]
  have hany : cache.any (fun r => r.NodeName == v.NodeName) = true :=
    List.any_eq_true.mpr ⟨v, hv2, by simp⟩
  simp [hany]

theorem countMtn_nil (cache : List NodeConsoleInfo) : countMtn cache [] = 0 := by
  simp [countMtn, cacheAfterAdds, addNewNodes, inCurrent]

theorem countRvr_nil (cache : List NodeConsoleInfo) : countRvr cache [] = 0 := by
  simp [countRvr, cacheAfterAdds, addNewNodes, inCurrent]

theorem registerPayload_nil_noForce (cache : List NodeConsoleInfo) :
    registerPayload cache [] false = [] := by
  simp [registerPayload, addNewNodes]

theorem updateNodeCounts_zero (maxMtn maxRvr : Nat) (st : SizingState) (resizeOk : Bool) :
    updateNodeCounts 0 0 maxMtn maxRvr st resizeOk = (st, none) := by
  simp [updateNodeCounts]

/-- C1: the claim asserts that a tick whose inventory fetch failed leaves the
NodeCache unchanged and issues no deregister call.  On the code, an inventory
error surfaces as an empty node list, and `doHardwareUpdate` then treats
every cached node as removed: with a one-node cache the removal payload is
that node (so `dataRemoveNodes` is called) and the cache is emptied. -/
theorem c1_counterexample :
    (doHardwareUpdate "t0" [sampleRiverNode] [] false false true true).removedNodes =
        [sampleRiverNode] ∧
      (doHardwareUpdate "t0" [sampleRiverNode] [] false false true true).newCache ≠
        [sampleRiverNode] := by
  constructor
  · decide
  · decide

/-- C1 (amended): when the inventory fetch fails (empty result) on a tick
that is not forcing a full resync, `last_reconcile_time` is still recorded
and no register call or replica resize happens — but the tick does not
short-circuit: the entire cache is dispatched as the deregister payload and
the NodeCache is emptied, and the class counts are zero so `updateNodeCounts`
bails out leaving the sizing state untouched. -/
theorem c1_amended (now : String) (cache : List NodeConsoleInfo)
    (redeployMtnKeys addOk stageOk : Bool) (maxMtn maxRvr : Nat)
    (st : SizingState) (resizeOk : Bool) :
    (doHardwareUpdate now cache [] false redeployMtnKeys addOk stageOk).hardwareUpdateTime =
        now ∧
      (doHardwareUpdate now cache [] false redeployMtnKeys addOk stageOk).newNodes = [] ∧
      (doHardwareUpdate now cache [] false redeployMtnKeys addOk stageOk).removedNodes =
        cache ∧
      (doHardwareUpdate now cache [] false redeployMtnKeys addOk stageOk).newCache = [] ∧
      (doHardwareUpdate now cache [] false redeployMtnKeys addOk stageOk).numMtnNodes = 0 ∧
      (doHardwareUpdate now cache [] false redeployMtnKeys addOk stageOk).numRvrNodes = 0 ∧
      updateNodeCounts
        (doHardwareUpdate now cache [] false redeployMtnKeys addOk stageOk).numMtnNodes
        (doHardwareUpdate now cache [] false redeployMtnKeys addOk stageOk).numRvrNodes
        maxMtn maxRvr st resizeOk = (st, none) := by
  refine ⟨rfl, ?_, ?_, ?_, ?_, ?_, ?_⟩
  · simp [doHardwareUpdate, registerPayload_nil_noForce]
  · simp [doHardwareUpdate, removedList_nil]
  · simp [doHardwareUpdate, retainedCache_nil]
  · simp [doHardwareUpdate, countMtn_nil]
  · simp [doHardwareUpdate, countRvr_nil]
  · simp [doHardwareUpdate, countMtn_nil, countRvr_nil, updateNodeCounts_zero]

/-! ## Sizing lemmas -/

theorem ceilDiv_zero_left (b : Nat) (hb : 1 ≤ b) : ceilDiv 0 b = 0 := by
  rw [ceilDiv]
  exact Nat.div_eq_of_lt (by omega)

/-- C2: whenever the post-tick cache holds at least one counted node, the
replica count requested from the cluster is exactly
`max(⌈M/MAX_MTN⌉ + 1, ⌈R/MAX_RVR⌉ + 1)` (a configured maximum of 0 is
lifted to 1), which is at least `max(⌈M/MAX_MTN⌉, ⌈R/MAX_RVR⌉) + 1`; with
no counted nodes the routine bails out, requesting nothing and leaving the
stored sizing values unchanged. -/
theorem c2_sizing (M R maxMtn maxRvr : Nat) (st : SizingState) (resizeOk : Bool) :
    (M + R ≠ 0 →
      ((updateNodeCounts M R maxMtn maxRvr st resizeOk).2.map SizingCalc.newNumPods) =
          some (max (ceilDiv M (max maxMtn 1) + 1) (ceilDiv R (max maxRvr 1) + 1)) ∧
        max (ceilDiv M (max maxMtn 1)) (ceilDiv R (max maxRvr 1)) + 1 ≤
          max (ceilDiv M (max maxMtn 1) + 1) (ceilDiv R (max maxRvr 1) + 1)) ∧
      (M + R = 0 → updateNodeCounts M R maxMtn maxRvr st resizeOk = (st, none)) := by
  constructor
  · intro h
    constructor
    · simp [updateNodeCounts, h, podsRequired]
    · omega
  · intro h
    simp [updateNodeCounts, h]

/-- C2 witness: with one mountain node, configured maxima 5/5 and fresh
state, the requested replica count is 2 ≥ max(1, 0) + 1, and an empty count
pair leaves the state alone. -/
theorem c2_sizing_witness :
    ((updateNodeCounts 1 0 5 5 ⟨-1, -1, -1⟩ true).2.map SizingCalc.newNumPods) =
        some (max (ceilDiv 1 (max 5 1) + 1) (ceilDiv 0 (max 5 1) + 1)) ∧
      updateNodeCounts 0 0 5 5 ⟨-1, -1, -1⟩ true = (⟨-1, -1, -1⟩, none) := by
  exact ⟨((c2_sizing 1 0 5 5 ⟨-1, -1, -1⟩ true).1 (by decide)).1,
    (c2_sizing 0 0 5 5 ⟨-1, -1, -1⟩ true).2 (by decide)⟩

/-- C6: with exactly one mountain-like node, zero river nodes and
`MAX_MTN = 5` (any configured river maximum), the sizing pass requests 2
workers and publishes the budgets mountain = ⌈1/2⌉ + 1 = 2 and
river = ⌈0/2⌉ + 1 = 1. -/
theorem c6_single_mountain (maxRvr : Nat) (st : SizingState) (resizeOk : Bool) :
    ((updateNodeCounts 1 0 5 maxRvr st resizeOk).2.map
        (fun c => (c.newNumPods, c.newMtn, c.newRvr))) = some (2, 2, 1) := by
  have hb : 1 ≤ max maxRvr 1 := le_max_right _ _
  have h0 : ceilDiv 0 (max maxRvr 1) = 0 := ceilDiv_zero_left _ hb
  have hpods : podsRequired 1 0 5 maxRvr = 2 := by
    simp only [podsRequired, h0]
    decide
  simp [updateNodeCounts, hpods, mtnBudget, rvrBudget]
  constructor <;> decide

/-! ## Gateway handler theorems -/

/-- C3: the claim asserts that a node absent from the NodeCache yields a 404
before any websocket upgrade, and that a failed worker lookup yields a 404.
On the code, neither handler consults the cache at all, the lookup error is
discarded, and with a non-empty xname the connection is upgraded and the
exec is attempted (with an empty pod name) even when the lookup failed. -/
theorem c3_counterexample :
    doInteractConsole ⟨"GET", "x9999c0s0b0n0", []⟩ true (.error "not monitored") =
        .execStream "" ["conman", "-j", "x9999c0s0b0n0"] ∧
      doFollowConsole ⟨"GET", "x9999c0s0b0n0", []⟩ true (.error "not monitored") =
        .execStream "" ["tail", "-F", "-n 20", "/var/log/conman/console.x9999c0s0b0n0"] := by
  constructor <;> rfl

/-- C3 (amended): for every request to `/interact/{nodeXname}` or
`/follow/{nodeXname}`, a non-GET method yields 405 and an empty `nodeXname`
yields 400; with a non-empty `nodeXname` the handler upgrades the connection
to a websocket without consulting the NodeCache, and a failed SSA worker
lookup is ignored (the exec proceeds against an empty pod name) rather than
producing a 404. -/
theorem c3_amended (r : HttpRequest) (upgradeOk : Bool) (lk : Except String String) :
    (r.method ≠ "GET" →
      doInteractConsole r upgradeOk lk = .methodNotAllowed ∧
        doFollowConsole r upgradeOk lk = .methodNotAllowed) ∧
      (r.method = "GET" → r.xname = "" →
        doInteractConsole r upgradeOk lk = .badRequest ∧
          doFollowConsole r upgradeOk lk = .badRequest) ∧
      (r.method = "GET" → r.xname ≠ "" → upgradeOk = true →
        doInteractConsole r upgradeOk lk =
            .execStream (lookupPodName lk) ["conman", "-j", r.xname] ∧
          doFollowConsole r upgradeOk lk =
            .execStream (lookupPodName lk) (followCmd r.xname)) := by
  refine ⟨fun h => ?_, fun h hx => ?_, fun h hx hu => ?_⟩
  · constructor <;> simp [doInteractConsole, doFollowConsole, h]
  · constructor <;> simp [doInteractConsole, doFollowConsole, h, hx]
  · constructor <;> simp [doInteractConsole, doFollowConsole, h, hx, hu]

/-- C3 (amended) witness: concrete requests hitting the 405, 400 and
upgraded-exec paths of `doInteractConsole`. -/
theorem c3_amended_witness :
    doInteractConsole ⟨"POST", "x1", []⟩ true (.ok "cray-console-node-0") =
        .methodNotAllowed ∧
      doInteractConsole ⟨"GET", "", []⟩ true (.ok "cray-console-node-0") = .badRequest ∧
      doInteractConsole ⟨"GET", "x1", []⟩ true (.ok "cray-console-node-2") =
        .execStream "cray-console-node-2" ["conman", "-j", "x1"] := by
  exact ⟨((c3_amended ⟨"POST", "x1", []⟩ true (.ok "cray-console-node-0")).1
      (by decide)).1,
    ((c3_amended ⟨"GET", "", []⟩ true (.ok "cray-console-node-0")).2.1 rfl rfl).1,
    ((c3_amended ⟨"GET", "x1", []⟩ true (.ok "cray-console-node-2")).2.2 rfl
      (by decide) rfl).1⟩

/-- C8: the claim asserts that header `Cray-Dump-Only = "True"` removes the
`-F` flag and header `Cray-Tail` controls the line count.  On the code the
command is hard-coded: a request carrying `Cray-Dump-Only: True` still gets
`-F` (and the line count is the fused literal `"-n 20"`, never read from
`Cray-Tail`). -/
theorem c8_counterexample :
    doFollowConsole ⟨"GET", "x1", [("Cray-Dump-Only", "True")]⟩ true
        (.ok "cray-console-node-2") =
      .execStream "cray-console-node-2"
        ["tail", "-F", "-n 20", "/var/log/conman/console.x1"] ∧
      "-F" ∈ followCmd "x1" := by
  constructor
  · rfl
  · decide

/-- C8 (amended): every upgraded `/follow/{nodeXname}` request executes
exactly `["tail", "-F", "-n 20", "/var/log/conman/console.<nodeXname>"]` in
the owning pod, independent of any request headers (which the handler never
reads). -/
theorem c8_amended (r : HttpRequest) (upgradeOk : Bool) (lk : Except String String) :
    (r.method = "GET" → r.xname ≠ "" → upgradeOk = true →
      doFollowConsole r upgradeOk lk =
        .execStream (lookupPodName lk)
          ["tail", "-F", "-n 20", "/var/log/conman/console." ++ r.xname]) ∧
      (∀ hs1 hs2 : List (String × String),
        doFollowConsole ⟨r.method, r.xname, hs1⟩ upgradeOk lk =
          doFollowConsole ⟨r.method, r.xname, hs2⟩ upgradeOk lk) := by
  constructor
  · intro h hx hu
    simp [doFollowConsole, followCmd, h, hx, hu]
  · intro hs1 hs2
    rfl

/-- C8 (amended) witness: a dump-only request still gets the hard-coded
follow command, and two requests differing only in headers get identical
outcomes. -/
theorem c8_amended_witness :
    doFollowConsole ⟨"GET", "x1", [("Cray-Dump-Only", "True")]⟩ true (.ok "p") =
        .execStream "p" ["tail", "-F", "-n 20", "/var/log/conman/console.x1"] ∧
      doFollowConsole ⟨"GET", "x1", [("Cray-Tail", "5")]⟩ true (.ok "p") =
        doFollowConsole ⟨"GET", "x1", []⟩ true (.ok "p") := by
  exact ⟨(c8_amended ⟨"GET", "x1", [("Cray-Dump-Only", "True")]⟩ true (.ok "p")).1
      rfl (by decide) rfl,
    (c8_amended ⟨"GET", "x1", [("Cray-Tail", "5")]⟩ true (.ok "p")).2
      [("Cray-Tail", "5")] []⟩

/-! ## Reconcile-loop (countdown / key latch) theorems -/

/-- C4: the claim asserts that a forced tick's register payload equals the
post-update cache (additions inserted, removals deleted) and that the
countdown is always reset to 10 afterwards.  On the code, the forced payload
is gathered while iterating the cache before removals are deleted, and a
failed register overrides the reset to 0: starting from countdown 0 with a
one-node cache and an empty inventory, the payload is the stale node while
the post-tick cache is empty, and the countdown ends at 0, not 10. -/
theorem c4_counterexample :
    (watchHardwareTick ⟨0, false, [sampleRiverNode]⟩ "t0" [] false true).result.newNodes =
        [sampleRiverNode] ∧
      (watchHardwareTick ⟨0, false, [sampleRiverNode]⟩ "t0" [] false true).state.cache =
        [] ∧
      (watchHardwareTick ⟨0, false, [sampleRiverNode]⟩ "t0" [] false true).result.newNodes ≠
        (watchHardwareTick ⟨0, false, [sampleRiverNode]⟩ "t0" [] false true).state.cache ∧
      (watchHardwareTick ⟨0, false, [sampleRiverNode]⟩ "t0" [] false true).state.forceUpdateCnt =
        0 ∧
      (watchHardwareTick ⟨0, false, [sampleRiverNode]⟩ "t0" [] false true).state.forceUpdateCnt ≠
        10 := by
  decide

/-- C4 (amended): a tick starting with countdown 0 sends as register payload
the cache as it stands after this tick's additions but before its removals
are deleted; the removal payload is the same as on an unforced tick; the
countdown afterwards is 10 when the register succeeded (or nothing needed
sending) and 0 when it failed.  A tick starting with a positive countdown
ends with the countdown decremented by one on success and forced to 0 on a
register failure. -/
theorem c4_amended (st : WatchState) (now : String) (curr : List NodeConsoleInfo)
    (addOk stageOk : Bool) :
    (st.forceUpdateCnt = 0 →
      (watchHardwareTick st now curr addOk stageOk).result.newNodes =
          cacheAfterAdds st.cache curr ∧
        (watchHardwareTick st now curr addOk stageOk).result.removedNodes =
          (doHardwareUpdate now st.cache curr false st.updateMtnKey addOk
            stageOk).removedNodes ∧
        (watchHardwareTick st now curr addOk stageOk).state.forceUpdateCnt =
          (if (watchHardwareTick st now curr addOk stageOk).result.updateSuccess then 10
            else 0)) ∧
      (0 < st.forceUpdateCnt →
        (watchHardwareTick st now curr addOk stageOk).state.forceUpdateCnt =
          (if (watchHardwareTick st now curr addOk stageOk).result.updateSuccess then
            st.forceUpdateCnt - 1 else 0)) := by
  constructor
  · intro h
    refine ⟨?_, rfl, ?_⟩
    · simp [watchHardwareTick, doHardwareUpdate, registerPayload, h]
    · simp [watchHardwareTick, h]
  · intro h
    have hne : st.forceUpdateCnt ≠ 0 := by omega
    have hge : ¬(st.forceUpdateCnt - 1 < 0) := by omega
    simp [watchHardwareTick, hne, hge]

/-- C4 (amended) witness: a forced tick over an empty system sends the empty
post-addition cache, and an unforced successful tick decrements 10 to 9. -/
theorem c4_amended_witness :
    (watchHardwareTick ⟨0, false, []⟩ "t" [] true true).result.newNodes =
        cacheAfterAdds [] [] ∧
      (watchHardwareTick ⟨10, false, []⟩ "t" [] true true).state.forceUpdateCnt =
        (if (watchHardwareTick ⟨10, false, []⟩ "t" [] true true).result.updateSuccess then
          (10 : Int) - 1 else 0) := by
  exact ⟨((c4_amended ⟨0, false, []⟩ "t" [] true true).1 rfl).1,
    (c4_amended ⟨10, false, []⟩ "t" [] true true).2 (by decide)⟩

/-- C5: the claim asserts that a mountain-key staging failure also forces the
next force-full-resync countdown to 0.  On the code, only a console-data
register failure touches the countdown: a tick entered with countdown 5
whose key staging fails (register succeeding) latches the redeploy flag but
leaves the countdown at 4. -/
theorem c5_counterexample :
    (watchHardwareTick ⟨5, false, []⟩ "t0" [sampleMtnNode] true false).result.keySuccess =
        false ∧
      (watchHardwareTick ⟨5, false, []⟩ "t0" [sampleMtnNode] true false).state.updateMtnKey =
        true ∧
      (watchHardwareTick ⟨5, false, []⟩ "t0" [sampleMtnNode] true false).state.forceUpdateCnt =
        4 ∧
      (watchHardwareTick ⟨5, false, []⟩ "t0" [sampleMtnNode] true false).state.forceUpdateCnt ≠
        0 := by
  decide

/-- C5 (amended): after every tick the redeploy latch equals the negation of
that tick's key-staging success (set on failure, cleared on success); a tick
entered with the latch set re-stages keys over the full mountain-like subset
of the post-addition cache; and the post-tick countdown is unaffected by the
key-staging outcome (only the register outcome can force it to 0). -/
theorem c5_amended (st : WatchState) (now : String) (curr : List NodeConsoleInfo)
    (addOk stageOk : Bool) :
    (watchHardwareTick st now curr addOk stageOk).state.updateMtnKey =
        !(watchHardwareTick st now curr addOk stageOk).result.keySuccess ∧
      (st.updateMtnKey = true →
        (watchHardwareTick st now curr addOk stageOk).result.newMtnNodes =
          (cacheAfterAdds st.cache curr).filter (fun v => v.isMountain)) ∧
      (watchHardwareTick st now curr addOk true).state.forceUpdateCnt =
        (watchHardwareTick st now curr addOk false).state.forceUpdateCnt := by
  refine ⟨rfl, fun h => ?_, ?_⟩
  · simp [watchHardwareTick, doHardwareUpdate, mtnKeyPayload, h]
  · rfl

/-- C5 (amended) witness: a tick entered with the latch set stages the full
(here empty) mountain subset of the cache. -/
theorem c5_amended_witness :
    (watchHardwareTick ⟨3, true, []⟩ "t" [] true true).result.newMtnNodes =
      (cacheAfterAdds [] []).filter (fun v => v.isMountain) := by
  exact (c5_amended ⟨3, true, []⟩ "t" [] true true).2.1 rfl

/-! ## HSM fetch theorems -/

theorem nodesFromComponents_abort (rf : List RedfishEndpoint) :
    ∀ comps : List StateComponent, ∀ c ∈ comps, c.Type' = "Node" → bmcName c.ID = none →
      nodesFromComponents rf comps = none := by
  intro comps
  induction comps with
  | nil => intro c hc; cases hc
  | cons sc rest ih =>
    intro c hc ht hb
    rcases List.mem_cons.mp hc with hceq | hmem
    · subst hceq
      simp [nodesFromComponents, ht, hb]
    · have hrest := ih c hmem ht hb
      rw [nodesFromComponents]
      by_cases hsc : sc.Type' == "Node"
      · rw [if_pos hsc]
        cases hB : bmcName sc.ID with
        | none => rfl
        | some bmc =>
          simp only []
          cases rfLookup rf bmc <;> simp [hrest]
      · rw [if_neg hsc]
        exact hrest

theorem nodesFromComponents_total (rf : List RedfishEndpoint) :
    ∀ comps : List StateComponent,
      (∀ c ∈ comps, c.Type' = "Node" → (bmcName c.ID).isSome) →
      (nodesFromComponents rf comps).isSome := by
  intro comps
  induction comps with
  | nil => intro _; rfl
  | cons sc rest ih =>
    intro h
    have hrest := ih (fun c hc => h c (List.mem_cons_of_mem sc hc))
    rw [nodesFromComponents]
    by_cases hsc : sc.Type' == "Node"
    · rw [if_pos hsc]
      have hB : (bmcName sc.ID).isSome :=
        h sc (List.mem_cons_self sc rest) (by simpa using hsc)
      cases hBv : bmcName sc.ID with
      | none => rw [hBv] at hB; cases hB
      | some bmc =>
        simp only []
        cases rfLookup rf bmc <;> simp [hrest]
    · rw [if_neg hsc]
      exact hrest

/-- A state component whose id contains no `n` (the claim's failing shape). -/
def badComp : StateComponent :=
  { ID := "abc", Type' := "Node", Class := "River", NID := 1, Role := "Compute" }

/-- A well-formed node state component. -/
def goodComp : StateComponent :=
  { ID := "x1c0s0b0n0", Type' := "Node", Class := "River", NID := 1, Role := "Compute" }

/-- The redfish endpoint matching `goodComp`. -/
def goodRf : RedfishEndpoint :=
  { ID := "x1c0s0b0", Type' := "NodeBMC", FQDN := "bmc.local", User := "root"
    Password := "pw" }

/-- C7: the claim asserts that a `Node` component whose id contains no `n`
is silently dropped with the remaining components still returned.  On the
code, `strings.LastIndex` returns -1 for such an id and the slice
`sc.ID[0:-1]` panics, aborting the whole fetch: with components
`[badComp, goodComp]` nothing is returned at all (modelled `none`), whereas
without the bad component the good node is returned. -/
theorem c7_counterexample :
    getCurrentNodesFromHSM [goodRf] [badComp, goodComp] = none ∧
      getCurrentNodesFromHSM [goodRf] [goodComp] =
        some [mkNodeInfo goodComp "x1c0s0b0" goodRf] := by
  constructor
  · decide
  · decide

/-- C7 (amended): the `bmc_id` derivation is partial, not total — any `Node`
component whose id contains no `n` makes the whole fetch panic (no records
are emitted for any component); when every `Node` component's id contains an
`n`, the fetch completes (skipping only components whose BMC is missing from
the endpoint index). -/
theorem c7_amended (rf : List RedfishEndpoint) (comps : List StateComponent) :
    ((∃ c ∈ comps, c.Type' = "Node" ∧ bmcName c.ID = none) →
      getCurrentNodesFromHSM rf comps = none) ∧
      ((∀ c ∈ comps, c.Type' = "Node" → (bmcName c.ID).isSome) →
        (getCurrentNodesFromHSM rf comps).isSome) := by
  constructor
  · intro ⟨c, hc, ht, hb⟩
    exact nodesFromComponents_abort rf comps c hc ht hb
  · intro h
    exact nodesFromComponents_total rf comps h

/-- C7 (amended) witness: the bad component alone aborts the fetch; the good
component alone survives it. -/
theorem c7_amended_witness :
    getCurrentNodesFromHSM [goodRf] [badComp] = none ∧
      (getCurrentNodesFromHSM [goodRf] [goodComp]).isSome := by
  exact ⟨(c7_amended [goodRf] [badComp]).1 ⟨badComp, by decide, by decide, by decide⟩,
    (c7_amended [goodRf] [goodComp]).2 (by decide)⟩

/-! ## Budget-file and environment-variable theorems -/

theorem readSingleEnvVarInt_empty (cur minVal maxVal : Int) :
    readSingleEnvVarInt [] cur minVal maxVal = cur := rfl

theorem readSingleEnvVarInt_unparsed (envVal : List Char) (cur minVal maxVal : Int)
    (h : atoi envVal = none) : readSingleEnvVarInt envVal cur minVal maxVal = cur := by
  by_cases he : envVal.isEmpty <;> simp [readSingleEnvVarInt, he, h]

theorem readSingleEnvVarInt_parsed (envVal : List Char) (cur minVal maxVal v : Int)
    (h : atoi envVal = some v) :
    readSingleEnvVarInt envVal cur minVal maxVal = min (max v minVal) maxVal := by
  have hne : envVal.isEmpty = false := by
    cases envVal with
    | nil => simp [atoi] at h
    | cons c cs => rfl
  simp only [readSingleEnvVarInt, hne, Bool.false_eq_true, if_false, h]
  split_ifs <;> omega

/-- C9: every budget-file write produces exactly the two newline-terminated
lines `River:<rvr>` then `Mountain:<mtn>`, which parse back (with the
worker-side parse, modelled from the spec) to the pair that was written; and
`updateNodeCounts` marks the file for writing only when the freshly computed
budget pair differs from the stored pair. -/
theorem c9_budget_file (m r : Nat) (M R maxMtn maxRvr : Nat) (st : SizingState)
    (resizeOk : Bool) :
    parseTargetNodeFile (targetNodeFileContent m r) = some (m, r) ∧
      (targetNodeFileContent m r).count '\n' = 2 ∧
      (∀ sc : SizingCalc, (updateNodeCounts M R maxMtn maxRvr st resizeOk).2 = some sc →
        sc.fileWritten = true →
        ((sc.newRvr : Int) ≠ st.numRvrNodesPerPod ∨
          (sc.newMtn : Int) ≠ st.numMtnNodesPerPod)) := by
  refine ⟨parse_targetNodeFileContent m r, count_newline_targetNodeFileContent m r, ?_⟩
  intro sc hsc hw
  by_cases h0 : M + R = 0
  · simp [updateNodeCounts, h0] at hsc
  · simp only [updateNodeCounts, h0, if_false, Option.some_inj] at hsc
    subst hsc
    simpa using hw

/-- C9 witness: the pair (mountain 2, river 1) written by the
single-mountain-node scenario round-trips through the file, and the write on
fresh (-1) stored values is justified by an actual difference. -/
theorem c9_budget_file_witness :
    parseTargetNodeFile (targetNodeFileContent 2 1) = some (2, 1) ∧
      (((1 : Nat) : Int) ≠ (-1 : Int) ∨ ((2 : Nat) : Int) ≠ (-1 : Int)) := by
  refine ⟨(c9_budget_file 2 1 1 0 5 5 ⟨-1, -1, -1⟩ true).1, ?_⟩
  exact (c9_budget_file 2 1 1 0 5 5 ⟨-1, -1, -1⟩ true).2.2
    { newNumPods := 2, newMtn := 2, newRvr := 1, fileWritten := true }
    (by decide) (by decide)

/-- C10: an unset (empty) or unparsable environment value leaves the
configuration variable at its built-in default; a value parsing as `v` is
stored as `min(max(v, minVal), maxVal)`; consequently, whenever
`minVal ≤ maxVal`, the stored value is either the untouched default or lies
in `[minVal, maxVal]`. -/
theorem c10_env_read (envVal : List Char) (cur minVal maxVal : Int) :
    (envVal = [] → readSingleEnvVarInt envVal cur minVal maxVal = cur) ∧
      (atoi envVal = none → readSingleEnvVarInt envVal cur minVal maxVal = cur) ∧
      (∀ v : Int, atoi envVal = some v →
        readSingleEnvVarInt envVal cur minVal maxVal = min (max v minVal) maxVal) ∧
      (minVal ≤ maxVal →
        readSingleEnvVarInt envVal cur minVal maxVal = cur ∨
          (minVal ≤ readSingleEnvVarInt envVal cur minVal maxVal ∧
            readSingleEnvVarInt envVal cur minVal maxVal ≤ maxVal)) := by
  refine ⟨fun h => by rw [h]; rfl,
    fun h => readSingleEnvVarInt_unparsed envVal cur minVal maxVal h,
    fun v hv => readSingleEnvVarInt_parsed envVal cur minVal maxVal v hv, fun h => ?_⟩
  cases ha : atoi envVal with
  | none => exact Or.inl (readSingleEnvVarInt_unparsed envVal cur minVal maxVal ha)
  | some v =>
    refine Or.inr ?_
    rw [readSingleEnvVarInt_parsed envVal cur minVal maxVal v ha]
    constructor <;> omega

/-- C10 witness: the value 7 against bounds [5, 10] is stored clamped (here
unchanged), and an unset variable keeps the default 42. -/
theorem c10_env_read_witness :
    readSingleEnvVarInt ['7'] 0 5 10 = min (max 7 5) 10 ∧
      readSingleEnvVarInt [] 42 5 10 = 42 := by
  exact ⟨(c10_env_read ['7'] 0 5 10).2.2.1 7 (by decide),
    (c10_env_read [] 42 5 10).1 rfl⟩
